import Mathlib

/-! # Wall-run character: a shallow embedding of `WallRunCharacter.cpp`

Scalars (`float` in the source) are elements of an arbitrary linearly ordered
field `K`; every definition is computable and can be evaluated at `K = ℚ`.
The literals `0.1f` and `-0.005` are the exact fractions `1/10` and `-1/200`.

What the engine supplies at the moment of a call (actor frame, movement
component read-outs, the line trace) is collected in `Engine`.  The camera-tilt
timeline (`BeginCameraTilt`, `EndCameraTilt`) and the on-screen debug messages
act on objects outside the state modelled here and are left out;
`UpdateCameraTilt`, the timeline's callback, is a function on the control
rotation.
-/

namespace WallRun

/-- The enumeration `EWallRunSide` of the character header. -/
inductive EWallRunSide where
  | None
  | Left
  | Right
deriving DecidableEq, Repr

/-- The engine vector type `FVector`: three scalar components. -/
structure FVector (K : Type) where
  X : K
  Y : K
  Z : K
deriving DecidableEq, Repr

namespace FVector

variable {K : Type} [LinearOrderedField K]

/-- The constant `FVector::ZeroVector`. -/
def ZeroVector : FVector K := ⟨0, 0, 0⟩

/-- The constant `FVector::UpVector`, world-up. -/
def UpVector : FVector K := ⟨0, 0, 1⟩

/-- Componentwise sum, `operator+`. -/
def add (a b : FVector K) : FVector K := ⟨a.X + b.X, a.Y + b.Y, a.Z + b.Z⟩

/-- Componentwise negation, unary `operator-`. -/
def neg (a : FVector K) : FVector K := ⟨-a.X, -a.Y, -a.Z⟩

/-- Scaling by a scalar, `float * FVector`. -/
def scale (k : K) (a : FVector K) : FVector K := ⟨k * a.X, k * a.Y, k * a.Z⟩

/-- The scalar product `FVector::DotProduct`. -/
def DotProduct (a b : FVector K) : K := a.X * b.X + a.Y * b.Y + a.Z * b.Z

/-- The vector product `FVector::CrossProduct`. -/
def CrossProduct (a b : FVector K) : FVector K :=
  ⟨a.Y * b.Z - a.Z * b.Y, a.Z * b.X - a.X * b.Z, a.X * b.Y - a.Y * b.X⟩

/-- The squared length `FVector::SizeSquared`. -/
def SizeSquared (a : FVector K) : K := a.X * a.X + a.Y * a.Y + a.Z * a.Z

/-- The horizontal part of a vector: the up-component set to zero. -/
def Horizontal (a : FVector K) : FVector K := ⟨a.X, a.Y, 0⟩

/-- Modelled from the spec: the engine routine `FVector::GetSafeNormal` is not
part of this repository.  The spec calls it `normalize`: the zero vector is
mapped to itself and every other vector is scaled by the inverse square root
of its squared length.  The inverse square root (`FMath::InvSqrt`) is the
parameter `InvSqrt`. -/
def GetSafeNormal (InvSqrt : K → K) (a : FVector K) : FVector K :=
  if SizeSquared a = 0 then ZeroVector else scale (InvSqrt (SizeSquared a)) a

end FVector

open FVector

/-- What the engine reports when one of the character's handlers runs: the
actor frame and position, the movement component's read-only values, and the
line trace (the normal of the first blocking hit between two points, if any). -/
structure Engine (K : Type) where
  ActorRightVector : FVector K
  ActorLocation : FVector K
  WalkableFloorZ : K
  IsFalling : Bool
  MaxSpeed : K
  JumpZVelocity : K
  LineTraceSingleByChannel : FVector K → FVector K → Option (FVector K)

/-- The members of `AWallRunCharacter` that the wall-run code reads and writes,
together with the two movement-component fields it writes
(`PlaneConstraintNormal`, `Velocity`) and whether the handle `WallRunTimer`
is pending in the timer manager. -/
structure AWallRunCharacter (K : Type) where
  bIsWallRunning : Bool
  CurrentWallRunSide : EWallRunSide
  CurrentWallRunDirection : FVector K
  ForwardAxis : K
  RightAxis : K
  PlaneConstraintNormal : FVector K
  Velocity : FVector K
  WallRunTimer : Bool
deriving DecidableEq

variable {K : Type} [LinearOrderedField K]

/-- Source: `AWallRunCharacter::IsSurfaceWallRunable`. -/
def IsSurfaceWallRunable (E : Engine K) (SorfaceNormal : FVector K) : Bool :=
  !(decide (SorfaceNormal.Z > E.WalkableFloorZ) || decide (SorfaceNormal.Z < -(1 / 200)))

/-- Source: `AWallRunCharacter::AreRequiredKeysDown`. -/
def AreRequiredKeysDown (c : AWallRunCharacter K) (Side : EWallRunSide) : Bool :=
  if c.ForwardAxis < 1 / 10 then false
  else if Side = EWallRunSide.Right ∧ c.RightAxis < -(1 / 10) then false
  else if Side = EWallRunSide.Left ∧ c.RightAxis > 1 / 10 then false
  else true

/-- Source: `AWallRunCharacter::GatWallRunSideDirection`; the two out-parameters
are returned as a pair. -/
def GatWallRunSideDirection (InvSqrt : K → K) (E : Engine K) (HitNormal : FVector K) :
    EWallRunSide × FVector K :=
  if DotProduct HitNormal E.ActorRightVector > 0 then
    (EWallRunSide.Left, GetSafeNormal InvSqrt (CrossProduct HitNormal UpVector))
  else
    (EWallRunSide.Right, GetSafeNormal InvSqrt (CrossProduct UpVector HitNormal))

/-- Source: `AWallRunCharacter::StartWallRun`.  `SetTimer` makes the handle
`WallRunTimer` pending. -/
def StartWallRun (c : AWallRunCharacter K) (Side : EWallRunSide) (Direction : FVector K) :
    AWallRunCharacter K :=
  { c with
    bIsWallRunning := true
    CurrentWallRunSide := Side
    CurrentWallRunDirection := Direction
    PlaneConstraintNormal := UpVector
    WallRunTimer := true }

/-- Source: `AWallRunCharacter::StopWallRun`. -/
def StopWallRun (c : AWallRunCharacter K) : AWallRunCharacter K :=
  { c with
    bIsWallRunning := false
    CurrentWallRunDirection := ZeroVector
    PlaneConstraintNormal := ZeroVector }

/-- Source: `AWallRunCharacter::OnPlayerCapsuleHit`; `HitNormal` is
`Hit.ImpactNormal`. -/
def OnPlayerCapsuleHit (InvSqrt : K → K) (E : Engine K) (c : AWallRunCharacter K)
    (HitNormal : FVector K) : AWallRunCharacter K :=
  if c.bIsWallRunning then c
  else if !IsSurfaceWallRunable E HitNormal then c
  else if !E.IsFalling then c
  else
    let r := GatWallRunSideDirection InvSqrt E HitNormal
    if !AreRequiredKeysDown c r.1 then c
    else StartWallRun c r.1 r.2

/-- Source: `AWallRunCharacter::UpdateWallRun`. -/
def UpdateWallRun (InvSqrt : K → K) (E : Engine K) (c : AWallRunCharacter K) :
    AWallRunCharacter K :=
  if c.bIsWallRunning then
    if !AreRequiredKeysDown c c.CurrentWallRunSide then StopWallRun c
    else
      let StartPosition := E.ActorLocation
      let LineTraceDirection :=
        if c.CurrentWallRunSide = EWallRunSide.Right then E.ActorRightVector
        else neg E.ActorRightVector
      let LineTraceLength : K := 200
      let EndPosition := add StartPosition (scale LineTraceLength LineTraceDirection)
      match E.LineTraceSingleByChannel StartPosition EndPosition with
      | some Normal =>
        let r := GatWallRunSideDirection InvSqrt E Normal
        if r.1 ≠ c.CurrentWallRunSide then StopWallRun c
        else
          { c with
            CurrentWallRunDirection := r.2
            Velocity := scale E.MaxSpeed r.2 }
      | none => StopWallRun c
  else c

/-- The line trace of `UpdateWallRun`: from the actor's location, 200 units
along the right vector for side `Right` and against it otherwise. -/
def WallRunProbe (E : Engine K) (c : AWallRunCharacter K) : Option (FVector K) :=
  E.LineTraceSingleByChannel E.ActorLocation
    (add E.ActorLocation (scale 200
      (if c.CurrentWallRunSide = EWallRunSide.Right then E.ActorRightVector
       else neg E.ActorRightVector)))

/-- The vector `Jump` hands to `LaunchCharacter` while wall-running. -/
def JumpLaunchVelocity (InvSqrt : K → K) (E : Engine K) (c : AWallRunCharacter K) : FVector K :=
  let JumpDerection :=
    if c.CurrentWallRunSide = EWallRunSide.Right then
      GetSafeNormal InvSqrt (CrossProduct c.CurrentWallRunDirection UpVector)
    else
      GetSafeNormal InvSqrt (CrossProduct UpVector c.CurrentWallRunDirection)
  let JumpDerection := add JumpDerection UpVector
  scale E.JumpZVelocity (GetSafeNormal InvSqrt JumpDerection)

/-- Source: `AWallRunCharacter::Jump`.  Returns the new state and the argument
of `LaunchCharacter`, if it was called; when not wall-running the request goes
to the base class, which does not touch the wall-run state. -/
def Jump (InvSqrt : K → K) (E : Engine K) (c : AWallRunCharacter K) :
    AWallRunCharacter K × Option (FVector K) :=
  if c.bIsWallRunning then
    (StopWallRun c, some (JumpLaunchVelocity InvSqrt E c))
  else (c, none)

/-- Source: `AWallRunCharacter::MoveForward`, the part that stores the axis. -/
def MoveForward (c : AWallRunCharacter K) (Value : K) : AWallRunCharacter K :=
  { c with ForwardAxis := Value }

/-- Source: `AWallRunCharacter::MoveRight`, the part that stores the axis. -/
def MoveRight (c : AWallRunCharacter K) (Value : K) : AWallRunCharacter K :=
  { c with RightAxis := Value }

/-- Modelled from the spec: the timer manager is engine code.  The one-shot
timer set in `StartWallRun` elapses: the handle stops being pending and the
bound callback `StopWallRun` runs.  Nothing happens when no timer is pending. -/
def WallRunTimerFired (c : AWallRunCharacter K) : AWallRunCharacter K :=
  if c.WallRunTimer then StopWallRun { c with WallRunTimer := false } else c

/-- Modelled from the spec: the member defaults live in the header, which is
not among the sources.  The character begins not running, side `None`,
direction zero, neutral axes, no plane-constraint normal, no pending timer. -/
def BeginPlayState : AWallRunCharacter K :=
  { bIsWallRunning := false
    CurrentWallRunSide := EWallRunSide.None
    CurrentWallRunDirection := ZeroVector
    ForwardAxis := 0
    RightAxis := 0
    PlaneConstraintNormal := ZeroVector
    Velocity := ZeroVector
    WallRunTimer := false }

/-- The entry points through which the engine drives the character. -/
inductive Event (K : Type) where
  | CapsuleHit (E : Engine K) (ImpactNormal : FVector K)
  | Tick (E : Engine K)
  | JumpPressed (E : Engine K)
  | TimerFired
  | Stop
  | ForwardInput (Value : K)
  | RightInput (Value : K)

/-- One event applied to the character. -/
def step (InvSqrt : K → K) (c : AWallRunCharacter K) : Event K → AWallRunCharacter K
  | Event.CapsuleHit E n => OnPlayerCapsuleHit InvSqrt E c n
  | Event.Tick E => UpdateWallRun InvSqrt E c
  | Event.JumpPressed E => (Jump InvSqrt E c).1
  | Event.TimerFired => WallRunTimerFired c
  | Event.Stop => StopWallRun c
  | Event.ForwardInput v => MoveForward c v
  | Event.RightInput v => MoveRight c v

/-- A sequence of events applied in order, starting from `c`. -/
def run (InvSqrt : K → K) (c : AWallRunCharacter K) (es : List (Event K)) : AWallRunCharacter K :=
  es.foldl (step InvSqrt) c

/-- An inverse square root on the rationals, exact on squares of rationals and
positive on positive arguments; it instantiates `InvSqrt` for evaluation. -/
def ratInvSqrt (s : ℚ) : ℚ := (Nat.sqrt s.den : ℚ) / (Nat.sqrt s.num.toNat : ℚ)

/-- A sample engine read-out over the rationals: the actor looks along `+X`
(right vector `+Y`), walkable-floor threshold `0.7`, falling, and the line
trace reports nothing. -/
def sampleEngine : Engine ℚ :=
  { ActorRightVector := ⟨0, 1, 0⟩
    ActorLocation := ⟨0, 0, 0⟩
    WalkableFloorZ := 7 / 10
    IsFalling := true
    MaxSpeed := 600
    JumpZVelocity := 420
    LineTraceSingleByChannel := fun _ _ => none }

/-- A sample engine read-out whose line trace always reports a wall with the
given normal. -/
def sampleEngineHitting (Normal : FVector ℚ) : Engine ℚ :=
  { sampleEngine with LineTraceSingleByChannel := fun _ _ => some Normal }

/-- A sample character that is not running and presses forward only. -/
def sampleIdle : AWallRunCharacter ℚ :=
  { (BeginPlayState : AWallRunCharacter ℚ) with ForwardAxis := 1 }

/-- A sample character in the middle of a run along a wall on its right, whose
normal is `(0, -1, 0)`: side `Right`, direction `(1, 0, 0)`, forward pressed. -/
def sampleRunningRight : AWallRunCharacter ℚ :=
  { bIsWallRunning := true
    CurrentWallRunSide := EWallRunSide.Right
    CurrentWallRunDirection := ⟨1, 0, 0⟩
    ForwardAxis := 1
    RightAxis := 0
    PlaneConstraintNormal := UpVector
    Velocity := ⟨600, 0, 0⟩
    WallRunTimer := true }

/-- The engine rotation type `FRotator`: pitch, yaw and roll. -/
structure FRotator (K : Type) where
  Pitch : K
  Yaw : K
  Roll : K
deriving DecidableEq, Repr

/-- Source: `AWallRunCharacter::UpdateCameraTilt`.  `CurrentControlRotation` is
what `GetControlRotation` returned; the result is the rotation handed to
`SetControlRotation`. -/
def UpdateCameraTilt (c : AWallRunCharacter K) (CurrentControlRotation : FRotator K)
    (Value : K) : FRotator K :=
  { CurrentControlRotation with
    Roll := if c.CurrentWallRunSide = EWallRunSide.Left then Value else -Value }

/-- The vector `GatWallRunSideDirection` normalises: the argument of
`GetSafeNormal` in the branch it takes. -/
def UnnormalizedWallRunDirection (E : Engine K) (HitNormal : FVector K) : FVector K :=
  if DotProduct HitNormal E.ActorRightVector > 0 then CrossProduct HitNormal UpVector
  else CrossProduct UpVector HitNormal

/-- The wall normal the current direction was last classified from, carried
next to the character: the contact normal when a contact starts a run, the
probe normal when a tick continues a run, and otherwise what it was. -/
def LatestWallNormal (InvSqrt : K → K) (c : AWallRunCharacter K) (last : Option (FVector K)) :
    Event K → Option (FVector K)
  | Event.CapsuleHit E n =>
    if c.bIsWallRunning = false ∧ (OnPlayerCapsuleHit InvSqrt E c n).bIsWallRunning = true then
      some n
    else last
  | Event.Tick E =>
    if (UpdateWallRun InvSqrt E c).bIsWallRunning = true then WallRunProbe E c else last
  | _ => last

/-- One event applied to the character together with its latest wall normal. -/
def stepTracked (InvSqrt : K → K) (p : AWallRunCharacter K × Option (FVector K)) (e : Event K) :
    AWallRunCharacter K × Option (FVector K) :=
  (step InvSqrt p.1 e, LatestWallNormal InvSqrt p.1 p.2 e)

/-- A sequence of events applied in order to the character together with its
latest wall normal. -/
def runTracked (InvSqrt : K → K) (p : AWallRunCharacter K × Option (FVector K))
    (es : List (Event K)) : AWallRunCharacter K × Option (FVector K) :=
  es.foldl (stepTracked InvSqrt) p

/-! ## Surface classification and the input gate -/

/-- C1, as the code decides it: `IsSurfaceWallRunable` is true exactly when the
up-component of the normal lies in the closed interval from `-0.005` to the
walkable-floor threshold; both end points are accepted. -/
theorem IsSurfaceWallRunable_iff (E : Engine K) (n : FVector K) :
    IsSurfaceWallRunable E n = true ↔ -(1 / 200) ≤ n.Z ∧ n.Z ≤ E.WalkableFloorZ := by
  simp only [IsSurfaceWallRunable, gt_iff_lt, Bool.not_eq_true', Bool.or_eq_false_iff,
    decide_eq_false_iff_not, not_lt]
  exact and_comm

/-- C1 fails as stated: with threshold `0.7`, a normal whose up-component is
exactly `0.7` is runnable although `0.7 < 0.7` is false, and so is a normal
whose up-component is exactly `-0.005`. -/
theorem IsSurfaceWallRunable_boundary_counterexample :
    ¬ (IsSurfaceWallRunable sampleEngine ⟨1, 0, 7 / 10⟩ = true ↔
        (-(1 / 200) < (7 / 10 : ℚ) ∧ (7 / 10 : ℚ) < sampleEngine.WalkableFloorZ)) ∧
    ¬ (IsSurfaceWallRunable sampleEngine ⟨1, 0, -(1 / 200)⟩ = true ↔
        (-(1 / 200) < (-(1 / 200) : ℚ) ∧ (-(1 / 200) : ℚ) < sampleEngine.WalkableFloorZ)) := by
  constructor <;> norm_num [IsSurfaceWallRunable, sampleEngine]

/-- C2, as the code decides it: `AreRequiredKeysDown` is false for every side
and every right-axis value whenever the forward axis is strictly below `0.1`. -/
theorem AreRequiredKeysDown_forward_lt (c : AWallRunCharacter K) (Side : EWallRunSide)
    (h : c.ForwardAxis < 1 / 10) : AreRequiredKeysDown c Side = false := by
  unfold AreRequiredKeysDown
  rw [if_pos h]

/-- The forward rejection of C2 at a back-pedalling character. -/
theorem AreRequiredKeysDown_forward_lt_witness :
    AreRequiredKeysDown ({ sampleIdle with ForwardAxis := -1 } : AWallRunCharacter ℚ)
      EWallRunSide.Right = false :=
  AreRequiredKeysDown_forward_lt _ EWallRunSide.Right (by norm_num)

/-- C2 fails as stated: with the forward axis exactly `0.1` and a neutral right
axis the gate accepts every side, because the source tests `ForwardAxis < 0.1f`. -/
theorem AreRequiredKeysDown_forward_boundary_counterexample :
    (({ sampleIdle with ForwardAxis := 1 / 10 } : AWallRunCharacter ℚ).ForwardAxis ≤ 1 / 10) ∧
    ¬ (AreRequiredKeysDown ({ sampleIdle with ForwardAxis := 1 / 10 } : AWallRunCharacter ℚ)
        EWallRunSide.None = false) ∧
    ¬ (AreRequiredKeysDown ({ sampleIdle with ForwardAxis := 1 / 10 } : AWallRunCharacter ℚ)
        EWallRunSide.Left = false) ∧
    ¬ (AreRequiredKeysDown ({ sampleIdle with ForwardAxis := 1 / 10 } : AWallRunCharacter ℚ)
        EWallRunSide.Right = false) := by
  simp [AreRequiredKeysDown, sampleIdle, BeginPlayState]

/-- C3: once the forward check is passed (the forward axis is not below `0.1`),
the gate for side `Right` holds exactly when `right ≥ -0.1`, the gate for side
`Left` holds exactly when `right ≤ 0.1`, and side `None` is never rejected. -/
theorem AreRequiredKeysDown_side_gate (c : AWallRunCharacter K)
    (h : ¬ c.ForwardAxis < 1 / 10) :
    (AreRequiredKeysDown c EWallRunSide.Right = true ↔ c.RightAxis ≥ -(1 / 10)) ∧
    (AreRequiredKeysDown c EWallRunSide.Left = true ↔ c.RightAxis ≤ 1 / 10) ∧
    AreRequiredKeysDown c EWallRunSide.None = true := by
  unfold AreRequiredKeysDown
  simp only [if_neg h]
  simp

/-- The side gate of C3 at a character that presses forward fully. -/
theorem AreRequiredKeysDown_side_gate_witness :
    (AreRequiredKeysDown sampleIdle EWallRunSide.Right = true ↔
      sampleIdle.RightAxis ≥ -(1 / 10)) ∧
    (AreRequiredKeysDown sampleIdle EWallRunSide.Left = true ↔
      sampleIdle.RightAxis ≤ 1 / 10) ∧
    AreRequiredKeysDown sampleIdle EWallRunSide.None = true :=
  AreRequiredKeysDown_side_gate sampleIdle (by norm_num [sampleIdle])

/-- C4, as the code decides it: when the hit normal is not orthogonal to the
actor's right vector, negating the normal swaps the side, `Left` to `Right` and
`Right` to `Left`. -/
theorem GatWallRunSideDirection_neg_side (InvSqrt : K → K) (E : Engine K) (n : FVector K)
    (h : DotProduct n E.ActorRightVector ≠ 0) :
    ((GatWallRunSideDirection InvSqrt E n).1 = EWallRunSide.Left ∧
      (GatWallRunSideDirection InvSqrt E (neg n)).1 = EWallRunSide.Right) ∨
    ((GatWallRunSideDirection InvSqrt E n).1 = EWallRunSide.Right ∧
      (GatWallRunSideDirection InvSqrt E (neg n)).1 = EWallRunSide.Left) := by
  have hneg : DotProduct (neg n) E.ActorRightVector = -DotProduct n E.ActorRightVector := by
    simp only [DotProduct, neg]; ring
  rcases lt_or_gt_of_ne h with hlt | hgt
  · right
    have h1 : ¬ DotProduct n E.ActorRightVector > 0 := not_lt.mpr hlt.le
    have h2 : DotProduct (neg n) E.ActorRightVector > 0 := by rw [hneg]; linarith
    simp [GatWallRunSideDirection, h1, h2]
  · left
    have h2 : ¬ DotProduct (neg n) E.ActorRightVector > 0 := by rw [hneg]; linarith
    simp [GatWallRunSideDirection, hgt, h2]

/-- The side swap of C4 at a wall on the actor's left, normal `(0, 1, 0)`. -/
theorem GatWallRunSideDirection_neg_side_witness :
    ((GatWallRunSideDirection ratInvSqrt sampleEngine ⟨0, 1, 0⟩).1 = EWallRunSide.Left ∧
      (GatWallRunSideDirection ratInvSqrt sampleEngine (neg ⟨0, 1, 0⟩)).1 = EWallRunSide.Right) ∨
    ((GatWallRunSideDirection ratInvSqrt sampleEngine ⟨0, 1, 0⟩).1 = EWallRunSide.Right ∧
      (GatWallRunSideDirection ratInvSqrt sampleEngine (neg ⟨0, 1, 0⟩)).1 = EWallRunSide.Left) :=
  GatWallRunSideDirection_neg_side ratInvSqrt sampleEngine ⟨0, 1, 0⟩
    (by norm_num [DotProduct, sampleEngine])

/-- C4 fails as stated: for the normal `(1, 0, 0)`, orthogonal to the actor's
right vector `(0, 1, 0)`, both the normal and its negation classify as `Right`. -/
theorem GatWallRunSideDirection_neg_side_counterexample :
    (GatWallRunSideDirection ratInvSqrt sampleEngine ⟨1, 0, 0⟩).1 = EWallRunSide.Right ∧
    (GatWallRunSideDirection ratInvSqrt sampleEngine (neg ⟨1, 0, 0⟩)).1 = EWallRunSide.Right := by
  simp [GatWallRunSideDirection, DotProduct, neg, sampleEngine]

/-! ## Vector facts used by the state-machine results -/

theorem FVector.SizeSquared_nonneg (a : FVector K) : 0 ≤ SizeSquared a := by
  unfold SizeSquared
  nlinarith [mul_self_nonneg a.X, mul_self_nonneg a.Y, mul_self_nonneg a.Z]

theorem FVector.SizeSquared_eq_zero_iff (a : FVector K) :
    SizeSquared a = 0 ↔ a = ZeroVector := by
  constructor
  · intro h
    unfold SizeSquared at h
    have hx : a.X = 0 := by
      nlinarith [mul_self_nonneg a.X, mul_self_nonneg a.Y, mul_self_nonneg a.Z]
    have hy : a.Y = 0 := by
      nlinarith [mul_self_nonneg a.X, mul_self_nonneg a.Y, mul_self_nonneg a.Z]
    have hz : a.Z = 0 := by
      nlinarith [mul_self_nonneg a.X, mul_self_nonneg a.Y, mul_self_nonneg a.Z]
    cases a
    simp_all [ZeroVector]
  · intro h
    subst h
    simp [SizeSquared, ZeroVector]

theorem FVector.GetSafeNormal_eq_zero_iff (InvSqrt : K → K)
    (hInv : ∀ s : K, 0 < s → 0 < InvSqrt s) (a : FVector K) :
    GetSafeNormal InvSqrt a = ZeroVector ↔ a = ZeroVector := by
  unfold GetSafeNormal
  by_cases h0 : SizeSquared a = 0
  · rw [if_pos h0]
    simp [(SizeSquared_eq_zero_iff a).mp h0]
  · have hpos : 0 < SizeSquared a := lt_of_le_of_ne (SizeSquared_nonneg a) (Ne.symm h0)
    have hk : InvSqrt (SizeSquared a) ≠ 0 := (hInv _ hpos).ne'
    have ha : a ≠ ZeroVector := fun h => h0 ((SizeSquared_eq_zero_iff a).mpr h)
    rw [if_neg h0]
    constructor
    · intro h
      exfalso
      apply ha
      cases a with
      | mk x y z =>
        simp only [scale, ZeroVector, FVector.mk.injEq, mul_eq_zero] at h ⊢
        exact ⟨h.1.resolve_left hk, h.2.1.resolve_left hk, h.2.2.resolve_left hk⟩
    · intro h
      exact absurd h ha

theorem FVector.CrossProduct_up_left_eq_zero_iff (n : FVector K) :
    CrossProduct UpVector n = ZeroVector ↔ n.X = 0 ∧ n.Y = 0 := by
  simp only [CrossProduct, UpVector, ZeroVector, FVector.mk.injEq]
  constructor
  · rintro ⟨h1, h2, _⟩
    constructor <;> linarith
  · rintro ⟨h1, h2⟩
    simp [h1, h2]

theorem FVector.CrossProduct_up_right_eq_zero_iff (n : FVector K) :
    CrossProduct n UpVector = ZeroVector ↔ n.X = 0 ∧ n.Y = 0 := by
  simp only [CrossProduct, UpVector, ZeroVector, FVector.mk.injEq]
  constructor
  · rintro ⟨h1, h2, _⟩
    constructor <;> linarith
  · rintro ⟨h1, h2⟩
    simp [h1, h2]

theorem GatWallRunSideDirection_side (InvSqrt : K → K) (E : Engine K) (n : FVector K) :
    (GatWallRunSideDirection InvSqrt E n).1 = EWallRunSide.Left ∨
    (GatWallRunSideDirection InvSqrt E n).1 = EWallRunSide.Right := by
  unfold GatWallRunSideDirection
  split <;> simp

theorem GatWallRunSideDirection_direction_eq_zero_iff (InvSqrt : K → K)
    (hInv : ∀ s : K, 0 < s → 0 < InvSqrt s) (E : Engine K) (n : FVector K) :
    (GatWallRunSideDirection InvSqrt E n).2 = ZeroVector ↔ n.X = 0 ∧ n.Y = 0 := by
  unfold GatWallRunSideDirection
  split
  · simp only [GetSafeNormal_eq_zero_iff InvSqrt hInv, CrossProduct_up_right_eq_zero_iff]
  · simp only [GetSafeNormal_eq_zero_iff InvSqrt hInv, CrossProduct_up_left_eq_zero_iff]

theorem ratInvSqrt_pos (s : ℚ) (h : 0 < s) : 0 < ratInvSqrt s := by
  unfold ratInvSqrt
  have hn : 0 < s.num := Rat.num_pos.mpr h
  have h1 : 0 < Nat.sqrt s.den := Nat.sqrt_pos.mpr s.den_pos
  have h2 : 0 < Nat.sqrt s.num.toNat := Nat.sqrt_pos.mpr (by omega)
  positivity

/-! ## Entry through the contact handler -/

/-- The contact handler starts a run exactly when all four checks pass, and
otherwise returns the character as it was. -/
theorem OnPlayerCapsuleHit_eq (InvSqrt : K → K) (E : Engine K) (c : AWallRunCharacter K)
    (n : FVector K) :
    OnPlayerCapsuleHit InvSqrt E c n =
      if c.bIsWallRunning = false ∧ IsSurfaceWallRunable E n = true ∧ E.IsFalling = true ∧
          AreRequiredKeysDown c (GatWallRunSideDirection InvSqrt E n).1 = true then
        StartWallRun c (GatWallRunSideDirection InvSqrt E n).1
          (GatWallRunSideDirection InvSqrt E n).2
      else c := by
  unfold OnPlayerCapsuleHit
  cases h1 : c.bIsWallRunning <;> cases h2 : IsSurfaceWallRunable E n <;>
    cases h3 : E.IsFalling <;>
    cases h4 : AreRequiredKeysDown c (GatWallRunSideDirection InvSqrt E n).1 <;>
    simp [h4]

/-- C5, as the code decides it: from a not-running, falling character whose
contact normal is runnable and whose keys are down for the classified side, the
contact handler starts the run: the flag is set, the side is `Left` or `Right`,
the plane-constraint normal is world-up, the timer is pending and the direction
is the classified one.  That direction differs from the zero vector exactly
when the normal has a non-zero horizontal component. -/
theorem OnPlayerCapsuleHit_starts (InvSqrt : K → K) (hInv : ∀ s : K, 0 < s → 0 < InvSqrt s)
    (E : Engine K) (c : AWallRunCharacter K) (n : FVector K)
    (hrun : c.bIsWallRunning = false) (hfall : E.IsFalling = true)
    (hsurf : IsSurfaceWallRunable E n = true)
    (hkeys : AreRequiredKeysDown c (GatWallRunSideDirection InvSqrt E n).1 = true) :
    (OnPlayerCapsuleHit InvSqrt E c n).bIsWallRunning = true ∧
    ((OnPlayerCapsuleHit InvSqrt E c n).CurrentWallRunSide = EWallRunSide.Left ∨
      (OnPlayerCapsuleHit InvSqrt E c n).CurrentWallRunSide = EWallRunSide.Right) ∧
    (OnPlayerCapsuleHit InvSqrt E c n).PlaneConstraintNormal = UpVector ∧
    (OnPlayerCapsuleHit InvSqrt E c n).WallRunTimer = true ∧
    (OnPlayerCapsuleHit InvSqrt E c n).CurrentWallRunDirection =
      (GatWallRunSideDirection InvSqrt E n).2 ∧
    ((OnPlayerCapsuleHit InvSqrt E c n).CurrentWallRunDirection ≠ ZeroVector ↔
      (n.X ≠ 0 ∨ n.Y ≠ 0)) := by
  rw [OnPlayerCapsuleHit_eq, if_pos ⟨hrun, hsurf, hfall, hkeys⟩]
  refine ⟨rfl, GatWallRunSideDirection_side InvSqrt E n, rfl, rfl, rfl, ?_⟩
  show (GatWallRunSideDirection InvSqrt E n).2 ≠ ZeroVector ↔ _
  rw [Ne, GatWallRunSideDirection_direction_eq_zero_iff InvSqrt hInv E n]
  tauto

/-- The entry of C5 at a wall on the actor's right with normal `(0, -1, 0)`:
all four checks pass and the run starts with a non-zero direction. -/
theorem OnPlayerCapsuleHit_starts_witness :
    (OnPlayerCapsuleHit ratInvSqrt sampleEngine sampleIdle ⟨0, -1, 0⟩).bIsWallRunning = true ∧
    ((OnPlayerCapsuleHit ratInvSqrt sampleEngine sampleIdle ⟨0, -1, 0⟩).CurrentWallRunSide =
        EWallRunSide.Left ∨
      (OnPlayerCapsuleHit ratInvSqrt sampleEngine sampleIdle ⟨0, -1, 0⟩).CurrentWallRunSide =
        EWallRunSide.Right) ∧
    (OnPlayerCapsuleHit ratInvSqrt sampleEngine sampleIdle ⟨0, -1, 0⟩).PlaneConstraintNormal =
      UpVector ∧
    (OnPlayerCapsuleHit ratInvSqrt sampleEngine sampleIdle ⟨0, -1, 0⟩).WallRunTimer = true ∧
    (OnPlayerCapsuleHit ratInvSqrt sampleEngine sampleIdle ⟨0, -1, 0⟩).CurrentWallRunDirection =
      (GatWallRunSideDirection ratInvSqrt sampleEngine ⟨0, -1, 0⟩).2 ∧
    ((OnPlayerCapsuleHit ratInvSqrt sampleEngine sampleIdle ⟨0, -1, 0⟩).CurrentWallRunDirection ≠
        ZeroVector ↔ ((0 : ℚ) ≠ 0 ∨ (-1 : ℚ) ≠ 0)) :=
  OnPlayerCapsuleHit_starts ratInvSqrt ratInvSqrt_pos sampleEngine sampleIdle ⟨0, -1, 0⟩
    (by simp [sampleIdle, BeginPlayState]) (by simp [sampleEngine])
    (by norm_num [IsSurfaceWallRunable, sampleEngine])
    (by norm_num [AreRequiredKeysDown, GatWallRunSideDirection, DotProduct, sampleEngine,
      sampleIdle, BeginPlayState])

/-- C5 fails as stated, at the spec's own scenario: not running, falling,
normal `(0, 0, 0.1)`, threshold `0.7`, forward `1`, right `0`.  Every check
passes and the run starts, but the direction written is the zero vector. -/
theorem OnPlayerCapsuleHit_vertical_normal_counterexample :
    sampleIdle.bIsWallRunning = false ∧ sampleEngine.IsFalling = true ∧
    sampleEngine.WalkableFloorZ = 7 / 10 ∧
    sampleIdle.ForwardAxis = 1 ∧ sampleIdle.RightAxis = 0 ∧
    IsSurfaceWallRunable sampleEngine ⟨0, 0, 1 / 10⟩ = true ∧
    AreRequiredKeysDown sampleIdle
      (GatWallRunSideDirection ratInvSqrt sampleEngine ⟨0, 0, 1 / 10⟩).1 = true ∧
    (OnPlayerCapsuleHit ratInvSqrt sampleEngine sampleIdle ⟨0, 0, 1 / 10⟩).bIsWallRunning = true ∧
    ¬ ((OnPlayerCapsuleHit ratInvSqrt sampleEngine sampleIdle
        ⟨0, 0, 1 / 10⟩).CurrentWallRunDirection ≠ ZeroVector) := by
  norm_num [OnPlayerCapsuleHit, IsSurfaceWallRunable, AreRequiredKeysDown,
    GatWallRunSideDirection, StartWallRun, GetSafeNormal, CrossProduct, DotProduct, SizeSquared,
    UpVector, ZeroVector, sampleEngine, sampleIdle, BeginPlayState]

/-- C6: if the character is already wall-running, or the contact normal is not
runnable, or the character is not falling, or the keys are not down for the
classified side, the contact handler returns the character unchanged in every
field; and from a not-running character the flag is set afterwards only if the
normal is runnable, the character is falling and the keys are down for the
classified side. -/
theorem OnPlayerCapsuleHit_gate (InvSqrt : K → K) (E : Engine K) (c : AWallRunCharacter K)
    (n : FVector K) :
    ((c.bIsWallRunning = true ∨ IsSurfaceWallRunable E n = false ∨ E.IsFalling = false ∨
        AreRequiredKeysDown c (GatWallRunSideDirection InvSqrt E n).1 = false) →
      OnPlayerCapsuleHit InvSqrt E c n = c) ∧
    (c.bIsWallRunning = false → (OnPlayerCapsuleHit InvSqrt E c n).bIsWallRunning = true →
      IsSurfaceWallRunable E n = true ∧ E.IsFalling = true ∧
        AreRequiredKeysDown c (GatWallRunSideDirection InvSqrt E n).1 = true) := by
  rw [OnPlayerCapsuleHit_eq]
  constructor
  · intro h
    rw [if_neg]
    rintro ⟨h1, h2, h3, h4⟩
    rcases h with h | h | h | h
    · rw [h1] at h; cases h
    · rw [h2] at h; cases h
    · rw [h3] at h; cases h
    · rw [h4] at h; cases h
  · intro hrun hafter
    split at hafter
    · next hall => exact hall.2
    · rw [hrun] at hafter; cases hafter

/-- The gate of C6 at a grounded character touching a runnable wall: nothing
changes. -/
theorem OnPlayerCapsuleHit_gate_witness :
    OnPlayerCapsuleHit ratInvSqrt { sampleEngine with IsFalling := false } sampleIdle
      ⟨0, -1, 0⟩ = sampleIdle :=
  (OnPlayerCapsuleHit_gate ratInvSqrt { sampleEngine with IsFalling := false } sampleIdle
    ⟨0, -1, 0⟩).1 (Or.inr (Or.inr (Or.inl rfl)))

/-! ## The per-tick update and the stop transition -/

/-- The tick in terms of the probe: a running character is stopped when the
keys are not down, when the probe misses, or when the probe's normal
classifies to another side; otherwise direction and velocity are rewritten. -/
theorem UpdateWallRun_eq (InvSqrt : K → K) (E : Engine K) (c : AWallRunCharacter K) :
    UpdateWallRun InvSqrt E c =
      if c.bIsWallRunning = true then
        if AreRequiredKeysDown c c.CurrentWallRunSide = false then StopWallRun c
        else
          match WallRunProbe E c with
          | some Normal =>
            if (GatWallRunSideDirection InvSqrt E Normal).1 ≠ c.CurrentWallRunSide then
              StopWallRun c
            else
              { c with
                CurrentWallRunDirection := (GatWallRunSideDirection InvSqrt E Normal).2
                Velocity := scale E.MaxSpeed (GatWallRunSideDirection InvSqrt E Normal).2 }
          | none => StopWallRun c
      else c := by
  unfold UpdateWallRun WallRunProbe
  cases h1 : c.bIsWallRunning <;> cases h2 : AreRequiredKeysDown c c.CurrentWallRunSide <;> simp

/-- C7: for a wall-running character the tick ends stopped (flag false,
direction zero, plane-constraint normal zero) if the keys are not down for the
current side, or the probe finds no hit, or the probe's normal classifies to a
side other than the current one; and no tick ever changes the side, so it is
not swapped while a run continues. -/
theorem UpdateWallRun_stop_conditions (InvSqrt : K → K) (E : Engine K)
    (c : AWallRunCharacter K) :
    (c.bIsWallRunning = true →
      (AreRequiredKeysDown c c.CurrentWallRunSide = false ∨ WallRunProbe E c = none ∨
        ∃ m, WallRunProbe E c = some m ∧
          (GatWallRunSideDirection InvSqrt E m).1 ≠ c.CurrentWallRunSide) →
      (UpdateWallRun InvSqrt E c).bIsWallRunning = false ∧
      (UpdateWallRun InvSqrt E c).CurrentWallRunDirection = ZeroVector ∧
      (UpdateWallRun InvSqrt E c).PlaneConstraintNormal = ZeroVector) ∧
    (UpdateWallRun InvSqrt E c).CurrentWallRunSide = c.CurrentWallRunSide := by
  rw [UpdateWallRun_eq]
  constructor
  · intro hrun hstop
    have hS : ∀ x : AWallRunCharacter K, x = StopWallRun c →
        x.bIsWallRunning = false ∧ x.CurrentWallRunDirection = ZeroVector ∧
          x.PlaneConstraintNormal = ZeroVector := by
      intro x hx
      subst hx
      exact ⟨rfl, rfl, rfl⟩
    apply hS
    rw [if_pos hrun]
    by_cases hk : AreRequiredKeysDown c c.CurrentWallRunSide = false
    · rw [if_pos hk]
    · rw [if_neg hk]
      rcases hstop with h | h | ⟨m, hm, hside⟩
      · exact absurd h hk
      · rw [h]
      · rw [hm]
        simp only []
        rw [if_pos hside]
  · split
    · split
      · rfl
      · split
        · split <;> rfl
        · rfl
    · rfl

/-- The stop conditions of C7 at a character running on side `Right` whose
probe returns the normal `(0, 1, 0)`, which classifies as `Left`: the run
stops. -/
theorem UpdateWallRun_stop_conditions_witness :
    (UpdateWallRun ratInvSqrt (sampleEngineHitting ⟨0, 1, 0⟩) sampleRunningRight).bIsWallRunning
      = false ∧
    (UpdateWallRun ratInvSqrt (sampleEngineHitting ⟨0, 1, 0⟩)
      sampleRunningRight).CurrentWallRunDirection = ZeroVector ∧
    (UpdateWallRun ratInvSqrt (sampleEngineHitting ⟨0, 1, 0⟩)
      sampleRunningRight).PlaneConstraintNormal = ZeroVector :=
  (UpdateWallRun_stop_conditions ratInvSqrt (sampleEngineHitting ⟨0, 1, 0⟩)
    sampleRunningRight).1 rfl
    (Or.inr (Or.inr ⟨⟨0, 1, 0⟩, rfl, by
      norm_num [GatWallRunSideDirection, DotProduct, sampleEngineHitting, sampleEngine,
        sampleRunningRight]
      decide⟩))

/-- C10: `StopWallRun` is idempotent: applying it twice gives the same
character, field for field, as applying it once, whether or not a run was in
progress. -/
theorem StopWallRun_idempotent (c : AWallRunCharacter K) :
    StopWallRun (StopWallRun c) = StopWallRun c := rfl

/-! ## The duration timer across event sequences -/

/-- One event keeps the property that a running character has its timer
pending. -/
theorem step_timer_pending (InvSqrt : K → K) (c : AWallRunCharacter K) (e : Event K)
    (h : c.bIsWallRunning = true → c.WallRunTimer = true) :
    (step InvSqrt c e).bIsWallRunning = true → (step InvSqrt c e).WallRunTimer = true := by
  cases e with
  | CapsuleHit E n =>
    show (OnPlayerCapsuleHit InvSqrt E c n).bIsWallRunning = true →
      (OnPlayerCapsuleHit InvSqrt E c n).WallRunTimer = true
    rw [OnPlayerCapsuleHit_eq]
    split
    · intro _; rfl
    · exact h
  | Tick E =>
    show (UpdateWallRun InvSqrt E c).bIsWallRunning = true →
      (UpdateWallRun InvSqrt E c).WallRunTimer = true
    rw [UpdateWallRun_eq]
    split
    · next hrun =>
      split
      · intro hf; cases hf
      · split
        · split
          · intro hf; cases hf
          · intro _; exact h hrun
        · intro hf; cases hf
    · exact h
  | JumpPressed E =>
    show (Jump InvSqrt E c).1.bIsWallRunning = true → (Jump InvSqrt E c).1.WallRunTimer = true
    unfold Jump
    split
    · intro hf; cases hf
    · exact h
  | TimerFired =>
    show (WallRunTimerFired c).bIsWallRunning = true → (WallRunTimerFired c).WallRunTimer = true
    unfold WallRunTimerFired
    split
    · intro hf; cases hf
    · exact h
  | Stop => intro hf; cases hf
  | ForwardInput v => exact h
  | RightInput v => exact h

/-- Every event sequence keeps the property that a running character has its
timer pending. -/
theorem run_timer_pending (InvSqrt : K → K) (es : List (Event K)) :
    ∀ c : AWallRunCharacter K, (c.bIsWallRunning = true → c.WallRunTimer = true) →
      (run InvSqrt c es).bIsWallRunning = true → (run InvSqrt c es).WallRunTimer = true := by
  induction es with
  | nil => intro c h; exact h
  | cons e es ih =>
    intro c h
    exact ih (step InvSqrt c e) (step_timer_pending InvSqrt c e h)

/-- C8, as the code decides it: in every state reached from the initial one
through contact, tick, jump, timer, stop and axis events, a running character
has its timer pending; and `StopWallRun` leaves the timer handle as it finds
it, so a stop does not cancel a pending timer. -/
theorem WallRunTimer_pending_while_running (InvSqrt : K → K) (es : List (Event K)) :
    ((run InvSqrt BeginPlayState es).bIsWallRunning = true →
      (run InvSqrt BeginPlayState es).WallRunTimer = true) ∧
    (StopWallRun (run InvSqrt BeginPlayState es)).WallRunTimer =
      (run InvSqrt BeginPlayState es).WallRunTimer :=
  ⟨run_timer_pending InvSqrt es BeginPlayState (fun h => by cases h), rfl⟩

/-- The timer property of C8 after pressing forward and touching a wall on the
right while falling: the run has started and its timer is pending. -/
theorem WallRunTimer_pending_while_running_witness :
    (run ratInvSqrt BeginPlayState
      [Event.ForwardInput 1, Event.CapsuleHit sampleEngine ⟨0, -1, 0⟩]).bIsWallRunning = true ∧
    (run ratInvSqrt BeginPlayState
      [Event.ForwardInput 1, Event.CapsuleHit sampleEngine ⟨0, -1, 0⟩]).WallRunTimer = true :=
  have hrun : (run ratInvSqrt BeginPlayState
      [Event.ForwardInput 1, Event.CapsuleHit sampleEngine ⟨0, -1, 0⟩]).bIsWallRunning = true := by
    norm_num [run, step, MoveForward, OnPlayerCapsuleHit, IsSurfaceWallRunable,
      AreRequiredKeysDown, GatWallRunSideDirection, StartWallRun, DotProduct, sampleEngine,
      BeginPlayState]
  ⟨hrun, (WallRunTimer_pending_while_running ratInvSqrt
    [Event.ForwardInput 1, Event.CapsuleHit sampleEngine ⟨0, -1, 0⟩]).1 hrun⟩

/-- C8 fails as stated: press forward, touch a wall on the right while falling,
then tick with a probe that finds nothing.  The tick stops the run, yet the
timer is still pending; the same holds when the run is left by a jump, and
when the pending timer then fires it runs `StopWallRun` a second time. -/
theorem WallRunTimer_not_cancelled_counterexample :
    ((run ratInvSqrt BeginPlayState
        [Event.ForwardInput 1, Event.CapsuleHit sampleEngine ⟨0, -1, 0⟩,
          Event.Tick sampleEngine]).bIsWallRunning = false ∧
      (run ratInvSqrt BeginPlayState
        [Event.ForwardInput 1, Event.CapsuleHit sampleEngine ⟨0, -1, 0⟩,
          Event.Tick sampleEngine]).WallRunTimer = true) ∧
    ((run ratInvSqrt BeginPlayState
        [Event.ForwardInput 1, Event.CapsuleHit sampleEngine ⟨0, -1, 0⟩,
          Event.JumpPressed sampleEngine]).bIsWallRunning = false ∧
      (run ratInvSqrt BeginPlayState
        [Event.ForwardInput 1, Event.CapsuleHit sampleEngine ⟨0, -1, 0⟩,
          Event.JumpPressed sampleEngine]).WallRunTimer = true) := by
  norm_num [run, step, MoveForward, OnPlayerCapsuleHit, UpdateWallRun, Jump, StopWallRun,
    IsSurfaceWallRunable, AreRequiredKeysDown, GatWallRunSideDirection, StartWallRun,
    DotProduct, sampleEngine, BeginPlayState]

/-! ## Jump-off -/

/-- Normalisation is a scaling by a positive factor. -/
theorem FVector.GetSafeNormal_eq_scale (InvSqrt : K → K)
    (hInv : ∀ s : K, 0 < s → 0 < InvSqrt s) (a : FVector K) :
    ∃ k : K, 0 < k ∧ GetSafeNormal InvSqrt a = scale k a := by
  unfold GetSafeNormal
  by_cases h0 : SizeSquared a = 0
  · refine ⟨1, one_pos, ?_⟩
    rw [if_pos h0, (SizeSquared_eq_zero_iff a).mp h0]
    simp [scale, ZeroVector]
  · refine ⟨InvSqrt (SizeSquared a), hInv _ ?_, ?_⟩
    · exact lt_of_le_of_ne (SizeSquared_nonneg a) (Ne.symm h0)
    · rw [if_neg h0]

/-- The launch vector of a character whose side and direction classify the
normal `n`: a positive multiple `j * k` of `(m * n.X, m * n.Y, 1)` with `m`
positive, where `j` is the jump impulse. -/
theorem JumpLaunchVelocity_shape (InvSqrt : K → K) (hInv : ∀ s : K, 0 < s → 0 < InvSqrt s)
    (E E0 : Engine K) (c : AWallRunCharacter K) (n : FVector K)
    (hcls : (c.CurrentWallRunSide, c.CurrentWallRunDirection) =
      GatWallRunSideDirection InvSqrt E0 n) :
    ∃ k m : K, 0 < k ∧ 0 < m ∧
      JumpLaunchVelocity InvSqrt E c =
        scale (E.JumpZVelocity * k) ⟨m * n.X, m * n.Y, 1⟩ := by
  have hpush : ∃ m : K, 0 < m ∧
      (if c.CurrentWallRunSide = EWallRunSide.Right then
        GetSafeNormal InvSqrt (CrossProduct c.CurrentWallRunDirection UpVector)
      else GetSafeNormal InvSqrt (CrossProduct UpVector c.CurrentWallRunDirection)) =
        ⟨m * n.X, m * n.Y, 0⟩ := by
    unfold GatWallRunSideDirection at hcls
    split at hcls
    · obtain ⟨hs, hd⟩ := Prod.mk.inj hcls
      obtain ⟨k1, hk1, e1⟩ := GetSafeNormal_eq_scale InvSqrt hInv (CrossProduct n UpVector)
      obtain ⟨k2, hk2, e2⟩ := GetSafeNormal_eq_scale InvSqrt hInv
        (CrossProduct UpVector c.CurrentWallRunDirection)
      refine ⟨k2 * k1, mul_pos hk2 hk1, ?_⟩
      rw [hs, if_neg (by decide), e2, hd, e1]
      simp only [scale, CrossProduct, UpVector, FVector.mk.injEq]
      refine ⟨by ring, by ring, by ring⟩
    · obtain ⟨hs, hd⟩ := Prod.mk.inj hcls
      obtain ⟨k1, hk1, e1⟩ := GetSafeNormal_eq_scale InvSqrt hInv (CrossProduct UpVector n)
      obtain ⟨k2, hk2, e2⟩ := GetSafeNormal_eq_scale InvSqrt hInv
        (CrossProduct c.CurrentWallRunDirection UpVector)
      refine ⟨k2 * k1, mul_pos hk2 hk1, ?_⟩
      rw [hs, if_pos rfl, e2, hd, e1]
      simp only [scale, CrossProduct, UpVector, FVector.mk.injEq]
      refine ⟨by ring, by ring, by ring⟩
  obtain ⟨m, hm, epush⟩ := hpush
  obtain ⟨k, hk, ek⟩ := GetSafeNormal_eq_scale InvSqrt hInv
    (add (⟨m * n.X, m * n.Y, 0⟩ : FVector K) UpVector)
  refine ⟨k, m, hk, hm, ?_⟩
  unfold JumpLaunchVelocity
  simp only [epush, ek]
  simp only [scale, add, UpVector, FVector.mk.injEq]
  refine ⟨by ring, by ring, by ring⟩

/-- C9: for a wall-running character whose side and direction are the
classification of a normal `n` with non-zero horizontal part, and a positive
jump impulse, `Jump` ends with the run flag false and calls `LaunchCharacter`
with a vector whose up-component is strictly positive and whose horizontal
part has a strictly negative dot product with the inward normal `-n`; the side
may be `Left` or `Right`. -/
theorem Jump_launches_away_from_wall (InvSqrt : K → K)
    (hInv : ∀ s : K, 0 < s → 0 < InvSqrt s)
    (E E0 : Engine K) (c : AWallRunCharacter K) (n : FVector K)
    (hrun : c.bIsWallRunning = true)
    (hcls : (c.CurrentWallRunSide, c.CurrentWallRunDirection) =
      GatWallRunSideDirection InvSqrt E0 n)
    (hn : n.X ≠ 0 ∨ n.Y ≠ 0) (hj : 0 < E.JumpZVelocity) :
    (Jump InvSqrt E c).1.bIsWallRunning = false ∧
    ∃ v : FVector K, (Jump InvSqrt E c).2 = some v ∧ 0 < v.Z ∧
      DotProduct (Horizontal v) (neg n) < 0 := by
  obtain ⟨k, m, hk, hm, e⟩ := JumpLaunchVelocity_shape InvSqrt hInv E E0 c n hcls
  unfold Jump
  rw [if_pos hrun]
  refine ⟨rfl, JumpLaunchVelocity InvSqrt E c, rfl, ?_, ?_⟩
  · rw [e]
    simp only [scale, mul_one]
    exact mul_pos hj hk
  · rw [e]
    simp only [scale, Horizontal, DotProduct, neg, mul_one, zero_mul, add_zero]
    have hh : 0 < n.X * n.X + n.Y * n.Y := by
      rcases hn with h | h
      · have := mul_self_pos.mpr h
        nlinarith [mul_self_nonneg n.Y]
      · have := mul_self_pos.mpr h
        nlinarith [mul_self_nonneg n.X]
    have hjk : 0 < E.JumpZVelocity * k * m := mul_pos (mul_pos hj hk) hm
    have : E.JumpZVelocity * k * (m * n.X) * -n.X + E.JumpZVelocity * k * (m * n.Y) * -n.Y =
        -(E.JumpZVelocity * k * m * (n.X * n.X + n.Y * n.Y)) := by ring
    rw [this]
    exact neg_neg_of_pos (mul_pos hjk hh)

/-- The jump-off of C9 at the sample character running on side `Right` along
the wall with normal `(0, -1, 0)`. -/
theorem Jump_launches_away_from_wall_witness :
    (Jump ratInvSqrt sampleEngine sampleRunningRight).1.bIsWallRunning = false ∧
    ∃ v : FVector ℚ, (Jump ratInvSqrt sampleEngine sampleRunningRight).2 = some v ∧ 0 < v.Z ∧
      DotProduct (Horizontal v) (neg ⟨0, -1, 0⟩) < 0 :=
  Jump_launches_away_from_wall ratInvSqrt ratInvSqrt_pos sampleEngine sampleEngine
    sampleRunningRight ⟨0, -1, 0⟩ rfl
    (by
      norm_num [GatWallRunSideDirection, GetSafeNormal, CrossProduct, DotProduct, SizeSquared,
        UpVector, ZeroVector, scale, sampleEngine, sampleRunningRight, ratInvSqrt])
    (Or.inr (by norm_num)) (by norm_num [sampleEngine])

/-! ## The side across event sequences -/

/-- One event keeps the property that a running character has side `Left` or
`Right`. -/
theorem step_side_while_running (InvSqrt : K → K) (c : AWallRunCharacter K) (e : Event K)
    (h : c.bIsWallRunning = true → c.CurrentWallRunSide ≠ EWallRunSide.None) :
    (step InvSqrt c e).bIsWallRunning = true →
      (step InvSqrt c e).CurrentWallRunSide ≠ EWallRunSide.None := by
  cases e with
  | CapsuleHit E n =>
    show (OnPlayerCapsuleHit InvSqrt E c n).bIsWallRunning = true →
      (OnPlayerCapsuleHit InvSqrt E c n).CurrentWallRunSide ≠ EWallRunSide.None
    rw [OnPlayerCapsuleHit_eq]
    split
    · intro _
      show (GatWallRunSideDirection InvSqrt E n).1 ≠ EWallRunSide.None
      rcases GatWallRunSideDirection_side InvSqrt E n with hs | hs <;> rw [hs] <;> decide
    · exact h
  | Tick E =>
    show (UpdateWallRun InvSqrt E c).bIsWallRunning = true →
      (UpdateWallRun InvSqrt E c).CurrentWallRunSide ≠ EWallRunSide.None
    rw [UpdateWallRun_eq]
    split
    · next hrun =>
      split
      · intro hf; cases hf
      · split
        · split
          · intro hf; cases hf
          · intro _; exact h hrun
        · intro hf; cases hf
    · exact h
  | JumpPressed E =>
    show (Jump InvSqrt E c).1.bIsWallRunning = true →
      (Jump InvSqrt E c).1.CurrentWallRunSide ≠ EWallRunSide.None
    unfold Jump
    split
    · intro hf; cases hf
    · exact h
  | TimerFired =>
    show (WallRunTimerFired c).bIsWallRunning = true →
      (WallRunTimerFired c).CurrentWallRunSide ≠ EWallRunSide.None
    unfold WallRunTimerFired
    split
    · intro hf; cases hf
    · exact h
  | Stop => intro hf; cases hf
  | ForwardInput v => exact h
  | RightInput v => exact h

/-- Every event sequence keeps the property that a running character has side
`Left` or `Right`. -/
theorem run_side_while_running (InvSqrt : K → K) (es : List (Event K)) :
    ∀ c : AWallRunCharacter K,
      (c.bIsWallRunning = true → c.CurrentWallRunSide ≠ EWallRunSide.None) →
      (run InvSqrt c es).bIsWallRunning = true →
        (run InvSqrt c es).CurrentWallRunSide ≠ EWallRunSide.None := by
  induction es with
  | nil => intro c h; exact h
  | cons e es ih =>
    intro c h
    exact ih (step InvSqrt c e) (step_side_while_running InvSqrt c e h)

/-- C11, as the code decides it: in every state reached from the initial one
through contact, tick, jump, timer, stop and axis events, side `None` implies
that the character is not running; and `StopWallRun` leaves the side as it
finds it, so after a stop the side of the finished run is still stored. -/
theorem CurrentWallRunSide_none_not_running (InvSqrt : K → K) (es : List (Event K)) :
    ((run InvSqrt BeginPlayState es).CurrentWallRunSide = EWallRunSide.None →
      (run InvSqrt BeginPlayState es).bIsWallRunning = false) ∧
    (StopWallRun (run InvSqrt BeginPlayState es)).CurrentWallRunSide =
      (run InvSqrt BeginPlayState es).CurrentWallRunSide := by
  refine ⟨fun hnone => ?_, rfl⟩
  cases hrun : (run InvSqrt BeginPlayState es).bIsWallRunning with
  | false => rfl
  | true =>
    exact absurd hnone
      (run_side_while_running InvSqrt es BeginPlayState (fun h => by cases h) hrun)

/-- The side property of C11 after a stop event alone: the side is `None` and
the character is not running. -/
theorem CurrentWallRunSide_none_not_running_witness :
    (run ratInvSqrt BeginPlayState [Event.Stop]).CurrentWallRunSide = EWallRunSide.None ∧
    (run ratInvSqrt BeginPlayState [Event.Stop]).bIsWallRunning = false :=
  ⟨rfl, (CurrentWallRunSide_none_not_running ratInvSqrt [Event.Stop]).1 rfl⟩

/-- C11 fails as stated: press forward, touch a wall on the right while falling,
then tick with a probe that finds nothing.  The run has stopped, yet the side
is still `Right`; the same holds when the run is left by a jump or ended by
the timer. -/
theorem CurrentWallRunSide_kept_after_stop_counterexample :
    ((run ratInvSqrt BeginPlayState
        [Event.ForwardInput 1, Event.CapsuleHit sampleEngine ⟨0, -1, 0⟩,
          Event.Tick sampleEngine]).bIsWallRunning = false ∧
      (run ratInvSqrt BeginPlayState
        [Event.ForwardInput 1, Event.CapsuleHit sampleEngine ⟨0, -1, 0⟩,
          Event.Tick sampleEngine]).CurrentWallRunSide = EWallRunSide.Right) ∧
    ((run ratInvSqrt BeginPlayState
        [Event.ForwardInput 1, Event.CapsuleHit sampleEngine ⟨0, -1, 0⟩,
          Event.JumpPressed sampleEngine]).bIsWallRunning = false ∧
      (run ratInvSqrt BeginPlayState
        [Event.ForwardInput 1, Event.CapsuleHit sampleEngine ⟨0, -1, 0⟩,
          Event.JumpPressed sampleEngine]).CurrentWallRunSide = EWallRunSide.Right) ∧
    ((run ratInvSqrt BeginPlayState
        [Event.ForwardInput 1, Event.CapsuleHit sampleEngine ⟨0, -1, 0⟩,
          Event.TimerFired]).bIsWallRunning = false ∧
      (run ratInvSqrt BeginPlayState
        [Event.ForwardInput 1, Event.CapsuleHit sampleEngine ⟨0, -1, 0⟩,
          Event.TimerFired]).CurrentWallRunSide = EWallRunSide.Right) := by
  norm_num [run, step, MoveForward, OnPlayerCapsuleHit, UpdateWallRun, Jump, StopWallRun,
    WallRunTimerFired, IsSurfaceWallRunable, AreRequiredKeysDown, GatWallRunSideDirection,
    StartWallRun, DotProduct, sampleEngine, BeginPlayState]

/-! ## Degenerate normals -/

/-- C12, as the code decides it: a normal whose classified direction is the
zero vector is not treated specially.  When the other entry checks pass, the
contact handler starts the run with the zero vector as direction; and when the
probe hits such a normal and it classifies to the current side, the tick keeps
the run going and writes the zero vector as direction and as velocity. -/
theorem degenerate_normal_not_rejected (InvSqrt : K → K) (E : Engine K)
    (c : AWallRunCharacter K) (n : FVector K)
    (hdeg : (GatWallRunSideDirection InvSqrt E n).2 = ZeroVector) :
    (c.bIsWallRunning = false → IsSurfaceWallRunable E n = true → E.IsFalling = true →
      AreRequiredKeysDown c (GatWallRunSideDirection InvSqrt E n).1 = true →
      (OnPlayerCapsuleHit InvSqrt E c n).bIsWallRunning = true ∧
      (OnPlayerCapsuleHit InvSqrt E c n).CurrentWallRunDirection = ZeroVector) ∧
    (c.bIsWallRunning = true → AreRequiredKeysDown c c.CurrentWallRunSide = true →
      WallRunProbe E c = some n →
      (GatWallRunSideDirection InvSqrt E n).1 = c.CurrentWallRunSide →
      (UpdateWallRun InvSqrt E c).bIsWallRunning = true ∧
      (UpdateWallRun InvSqrt E c).CurrentWallRunDirection = ZeroVector ∧
      (UpdateWallRun InvSqrt E c).Velocity = ZeroVector) := by
  constructor
  · intro hrun hsurf hfall hkeys
    rw [OnPlayerCapsuleHit_eq, if_pos ⟨hrun, hsurf, hfall, hkeys⟩]
    exact ⟨rfl, hdeg⟩
  · intro hrun hkeys hprobe hside
    rw [UpdateWallRun_eq, if_pos hrun, if_neg (by rw [hkeys]; decide), hprobe]
    simp only []
    rw [if_neg (not_not.mpr hside)]
    refine ⟨hrun, hdeg, ?_⟩
    show scale E.MaxSpeed (GatWallRunSideDirection InvSqrt E n).2 = ZeroVector
    rw [hdeg]
    simp [scale, ZeroVector]

/-- The degenerate entry of C12 at the normal `(0, 0, 0.1)`: the run starts
with direction zero. -/
theorem degenerate_normal_not_rejected_witness :
    (OnPlayerCapsuleHit ratInvSqrt sampleEngine sampleIdle ⟨0, 0, 1 / 10⟩).bIsWallRunning = true ∧
    (OnPlayerCapsuleHit ratInvSqrt sampleEngine sampleIdle
      ⟨0, 0, 1 / 10⟩).CurrentWallRunDirection = ZeroVector :=
  (degenerate_normal_not_rejected ratInvSqrt sampleEngine sampleIdle ⟨0, 0, 1 / 10⟩
    (by
      norm_num [GatWallRunSideDirection, GetSafeNormal, CrossProduct, DotProduct, SizeSquared,
        UpVector, ZeroVector, sampleEngine])).1
    (by simp [sampleIdle, BeginPlayState]) (by norm_num [IsSurfaceWallRunable, sampleEngine])
    (by simp [sampleEngine])
    (by
      norm_num [AreRequiredKeysDown, GatWallRunSideDirection, DotProduct, sampleEngine,
        sampleIdle, BeginPlayState])

/-- C12 fails as stated.  The contact normal `(0, 0, 0.1)` and the zero normal
classify to the zero direction, yet the contact handler starts a run from the
idle falling character; and the probe normal `(0, 0, 1)` classifies to the zero
direction, yet the tick keeps the sample run going, with direction and
velocity zero. -/
theorem degenerate_normal_counterexample :
    ((GatWallRunSideDirection ratInvSqrt sampleEngine ⟨0, 0, 1 / 10⟩).2 = ZeroVector ∧
      sampleIdle.bIsWallRunning = false ∧
      (OnPlayerCapsuleHit ratInvSqrt sampleEngine sampleIdle
        ⟨0, 0, 1 / 10⟩).bIsWallRunning = true) ∧
    ((GatWallRunSideDirection ratInvSqrt sampleEngine ⟨0, 0, 0⟩).2 = ZeroVector ∧
      (OnPlayerCapsuleHit ratInvSqrt sampleEngine sampleIdle ⟨0, 0, 0⟩).bIsWallRunning = true) ∧
    ((GatWallRunSideDirection ratInvSqrt (sampleEngineHitting ⟨0, 0, 1⟩) ⟨0, 0, 1⟩).2 =
        ZeroVector ∧
      WallRunProbe (sampleEngineHitting ⟨0, 0, 1⟩) sampleRunningRight = some ⟨0, 0, 1⟩ ∧
      (UpdateWallRun ratInvSqrt (sampleEngineHitting ⟨0, 0, 1⟩)
        sampleRunningRight).bIsWallRunning = true ∧
      (UpdateWallRun ratInvSqrt (sampleEngineHitting ⟨0, 0, 1⟩)
        sampleRunningRight).CurrentWallRunDirection = ZeroVector ∧
      (UpdateWallRun ratInvSqrt (sampleEngineHitting ⟨0, 0, 1⟩)
        sampleRunningRight).Velocity = ZeroVector) := by
  norm_num [OnPlayerCapsuleHit, UpdateWallRun, WallRunProbe, IsSurfaceWallRunable,
    AreRequiredKeysDown, GatWallRunSideDirection, StartWallRun, GetSafeNormal, CrossProduct,
    DotProduct, SizeSquared, scale, UpVector, ZeroVector, sampleEngineHitting, sampleEngine,
    sampleIdle, sampleRunningRight, BeginPlayState]

/-! ## Geometry of the classified direction -/

theorem FVector.GetSafeNormal_DotProduct_eq_zero (InvSqrt : K → K) (a b : FVector K)
    (h : DotProduct a b = 0) : DotProduct (GetSafeNormal InvSqrt a) b = 0 := by
  unfold GetSafeNormal
  split
  · simp [DotProduct, ZeroVector]
  · have e : DotProduct (scale (InvSqrt (SizeSquared a)) a) b =
        InvSqrt (SizeSquared a) * DotProduct a b := by
      simp only [DotProduct, scale]; ring
    rw [e, h, mul_zero]

theorem FVector.GetSafeNormal_SizeSquared (InvSqrt : K → K) (a : FVector K)
    (h : InvSqrt (SizeSquared a) * InvSqrt (SizeSquared a) * SizeSquared a = 1) :
    SizeSquared (GetSafeNormal InvSqrt a) = 1 := by
  have h0 : SizeSquared a ≠ 0 := by
    intro h0
    rw [h0, mul_zero] at h
    exact zero_ne_one h
  unfold GetSafeNormal
  rw [if_neg h0]
  have e : SizeSquared (scale (InvSqrt (SizeSquared a)) a) =
      InvSqrt (SizeSquared a) * InvSqrt (SizeSquared a) * SizeSquared a := by
    simp only [SizeSquared, scale]; ring
  rw [e, h]

theorem GatWallRunSideDirection_snd (InvSqrt : K → K) (E : Engine K) (n : FVector K) :
    (GatWallRunSideDirection InvSqrt E n).2 =
      GetSafeNormal InvSqrt (UnnormalizedWallRunDirection E n) := by
  unfold GatWallRunSideDirection UnnormalizedWallRunDirection
  split <;> rfl

theorem UnnormalizedWallRunDirection_SizeSquared (E : Engine K) (n : FVector K) :
    SizeSquared (UnnormalizedWallRunDirection E n) = n.X * n.X + n.Y * n.Y := by
  unfold UnnormalizedWallRunDirection
  split <;> simp only [SizeSquared, CrossProduct, UpVector] <;> ring

theorem UnnormalizedWallRunDirection_DotProduct_up (E : Engine K) (n : FVector K) :
    DotProduct (UnnormalizedWallRunDirection E n) UpVector = 0 := by
  unfold UnnormalizedWallRunDirection
  split <;> simp only [DotProduct, CrossProduct, UpVector] <;> ring

theorem UnnormalizedWallRunDirection_DotProduct_normal (E : Engine K) (n : FVector K) :
    DotProduct (UnnormalizedWallRunDirection E n) n = 0 := by
  unfold UnnormalizedWallRunDirection
  split <;> simp only [DotProduct, CrossProduct, UpVector] <;> ring

/-- The classified direction is orthogonal to world-up and to the normal; it is
the zero vector for a normal without horizontal part; and where the inverse
square root is exact at the squared horizontal length it has length one. -/
theorem GatWallRunSideDirection_direction_geometry (InvSqrt : K → K) (E : Engine K)
    (n : FVector K) :
    DotProduct (GatWallRunSideDirection InvSqrt E n).2 UpVector = 0 ∧
    DotProduct (GatWallRunSideDirection InvSqrt E n).2 n = 0 ∧
    (n.X = 0 ∧ n.Y = 0 → (GatWallRunSideDirection InvSqrt E n).2 = ZeroVector) ∧
    (InvSqrt (n.X * n.X + n.Y * n.Y) * InvSqrt (n.X * n.X + n.Y * n.Y) *
        (n.X * n.X + n.Y * n.Y) = 1 →
      SizeSquared (GatWallRunSideDirection InvSqrt E n).2 = 1) := by
  rw [GatWallRunSideDirection_snd]
  refine ⟨?_, ?_, ?_, ?_⟩
  · exact GetSafeNormal_DotProduct_eq_zero InvSqrt _ _
      (UnnormalizedWallRunDirection_DotProduct_up E n)
  · exact GetSafeNormal_DotProduct_eq_zero InvSqrt _ _
      (UnnormalizedWallRunDirection_DotProduct_normal E n)
  · rintro ⟨hx, hy⟩
    unfold GetSafeNormal
    rw [if_pos]
    rw [UnnormalizedWallRunDirection_SizeSquared, hx, hy]
    simp
  · intro h
    apply GetSafeNormal_SizeSquared
    rw [UnnormalizedWallRunDirection_SizeSquared]
    exact h

/-! ## The direction across event sequences -/

/-- A contact that turns a not-running character into a running one wrote the
direction classified from the contact normal. -/
theorem OnPlayerCapsuleHit_direction_of_started (InvSqrt : K → K) (E : Engine K)
    (c : AWallRunCharacter K) (n : FVector K) (hc : c.bIsWallRunning = false)
    (h : (OnPlayerCapsuleHit InvSqrt E c n).bIsWallRunning = true) :
    (OnPlayerCapsuleHit InvSqrt E c n).CurrentWallRunDirection =
      (GatWallRunSideDirection InvSqrt E n).2 := by
  rw [OnPlayerCapsuleHit_eq] at h ⊢
  split at h
  · next hall => rw [if_pos hall]; rfl
  · rw [hc] at h; cases h

/-- A tick that leaves the character running found a probe hit and wrote the
direction classified from the probe normal. -/
theorem UpdateWallRun_direction_of_running (InvSqrt : K → K) (E : Engine K)
    (c : AWallRunCharacter K) (h : (UpdateWallRun InvSqrt E c).bIsWallRunning = true) :
    ∃ m, WallRunProbe E c = some m ∧
      (UpdateWallRun InvSqrt E c).CurrentWallRunDirection =
        (GatWallRunSideDirection InvSqrt E m).2 := by
  rw [UpdateWallRun_eq] at h ⊢
  by_cases hrun : c.bIsWallRunning = true
  · rw [if_pos hrun] at h ⊢
    by_cases hk : AreRequiredKeysDown c c.CurrentWallRunSide = false
    · rw [if_pos hk] at h; cases h
    · rw [if_neg hk] at h ⊢
      cases hp : WallRunProbe E c with
      | none => rw [hp] at h; cases h
      | some m =>
        rw [hp] at h
        simp only [] at h ⊢
        by_cases hs : (GatWallRunSideDirection InvSqrt E m).1 ≠ c.CurrentWallRunSide
        · rw [if_pos hs] at h; cases h
        · rw [if_neg hs]
          exact ⟨m, rfl, rfl⟩
  · rw [if_neg hrun] at h
    exact absurd h hrun

/-- One event keeps the property that the direction of a running character is
the one classified from its latest wall normal. -/
theorem stepTracked_direction (InvSqrt : K → K)
    (p : AWallRunCharacter K × Option (FVector K)) (e : Event K)
    (h : p.1.bIsWallRunning = true → ∃ n E0, p.2 = some n ∧
      p.1.CurrentWallRunDirection = (GatWallRunSideDirection InvSqrt E0 n).2) :
    (stepTracked InvSqrt p e).1.bIsWallRunning = true → ∃ n E0,
      (stepTracked InvSqrt p e).2 = some n ∧
      (stepTracked InvSqrt p e).1.CurrentWallRunDirection =
        (GatWallRunSideDirection InvSqrt E0 n).2 := by
  cases e with
  | CapsuleHit E n =>
    show (OnPlayerCapsuleHit InvSqrt E p.1 n).bIsWallRunning = true → ∃ n0 E0,
      (if p.1.bIsWallRunning = false ∧
          (OnPlayerCapsuleHit InvSqrt E p.1 n).bIsWallRunning = true then some n else p.2) =
        some n0 ∧
      (OnPlayerCapsuleHit InvSqrt E p.1 n).CurrentWallRunDirection =
        (GatWallRunSideDirection InvSqrt E0 n0).2
    intro hres
    cases hc : p.1.bIsWallRunning with
    | false =>
      refine ⟨n, E, ?_, OnPlayerCapsuleHit_direction_of_started InvSqrt E p.1 n hc hres⟩
      rw [if_pos ⟨rfl, hres⟩]
    | true =>
      have hsame : OnPlayerCapsuleHit InvSqrt E p.1 n = p.1 := by
        rw [OnPlayerCapsuleHit_eq, if_neg]
        rintro ⟨hf, _⟩
        rw [hc] at hf; cases hf
      obtain ⟨n0, E0, h1, h2⟩ := h hc
      refine ⟨n0, E0, ?_, ?_⟩
      · rw [if_neg]
        · exact h1
        · rintro ⟨hf, _⟩
          cases hf
      · rw [hsame]; exact h2
  | Tick E =>
    show (UpdateWallRun InvSqrt E p.1).bIsWallRunning = true → ∃ n0 E0,
      (if (UpdateWallRun InvSqrt E p.1).bIsWallRunning = true then WallRunProbe E p.1
        else p.2) = some n0 ∧
      (UpdateWallRun InvSqrt E p.1).CurrentWallRunDirection =
        (GatWallRunSideDirection InvSqrt E0 n0).2
    intro hres
    obtain ⟨m, hm, hd⟩ := UpdateWallRun_direction_of_running InvSqrt E p.1 hres
    refine ⟨m, E, ?_, hd⟩
    rw [if_pos hres, hm]
  | JumpPressed E =>
    show (Jump InvSqrt E p.1).1.bIsWallRunning = true → ∃ n0 E0, p.2 = some n0 ∧
      (Jump InvSqrt E p.1).1.CurrentWallRunDirection = (GatWallRunSideDirection InvSqrt E0 n0).2
    unfold Jump
    split
    · intro hf; cases hf
    · exact h
  | TimerFired =>
    show (WallRunTimerFired p.1).bIsWallRunning = true → ∃ n0 E0, p.2 = some n0 ∧
      (WallRunTimerFired p.1).CurrentWallRunDirection = (GatWallRunSideDirection InvSqrt E0 n0).2
    unfold WallRunTimerFired
    split
    · intro hf; cases hf
    · exact h
  | Stop => intro hf; cases hf
  | ForwardInput v => exact h
  | RightInput v => exact h

/-- Every event sequence keeps the property that the direction of a running
character is the one classified from its latest wall normal. -/
theorem runTracked_direction (InvSqrt : K → K) (es : List (Event K)) :
    ∀ p : AWallRunCharacter K × Option (FVector K),
      (p.1.bIsWallRunning = true → ∃ n E0, p.2 = some n ∧
        p.1.CurrentWallRunDirection = (GatWallRunSideDirection InvSqrt E0 n).2) →
      (runTracked InvSqrt p es).1.bIsWallRunning = true → ∃ n E0,
        (runTracked InvSqrt p es).2 = some n ∧
        (runTracked InvSqrt p es).1.CurrentWallRunDirection =
          (GatWallRunSideDirection InvSqrt E0 n).2 := by
  induction es with
  | nil => intro p h; exact h
  | cons e es ih =>
    intro p h
    exact ih (stepTracked InvSqrt p e) (stepTracked_direction InvSqrt p e h)

/-- The tracked run moves the character exactly as the plain run does. -/
theorem runTracked_fst (InvSqrt : K → K) (es : List (Event K)) :
    ∀ p : AWallRunCharacter K × Option (FVector K),
      (runTracked InvSqrt p es).1 = run InvSqrt p.1 es := by
  induction es with
  | nil => intro p; rfl
  | cons e es ih =>
    intro p
    exact ih (stepTracked InvSqrt p e)

/-- C13, as the code decides it: in every running state reached from the
initial one through contact, tick, jump, timer, stop and axis events, there is
a latest wall normal (the contact normal of the start or the most recent probe
normal), and the direction is orthogonal to world-up and to that normal.  The
direction is the zero vector when that normal has no horizontal part, and it
has length one when the inverse square root is exact at the squared horizontal
length of that normal. -/
theorem CurrentWallRunDirection_while_running (InvSqrt : K → K) (es : List (Event K))
    (hrun : (run InvSqrt BeginPlayState es).bIsWallRunning = true) :
    ∃ n : FVector K, (runTracked InvSqrt (BeginPlayState, none) es).2 = some n ∧
      DotProduct (run InvSqrt BeginPlayState es).CurrentWallRunDirection UpVector = 0 ∧
      DotProduct (run InvSqrt BeginPlayState es).CurrentWallRunDirection n = 0 ∧
      (n.X = 0 ∧ n.Y = 0 →
        (run InvSqrt BeginPlayState es).CurrentWallRunDirection = ZeroVector) ∧
      (InvSqrt (n.X * n.X + n.Y * n.Y) * InvSqrt (n.X * n.X + n.Y * n.Y) *
          (n.X * n.X + n.Y * n.Y) = 1 →
        SizeSquared (run InvSqrt BeginPlayState es).CurrentWallRunDirection = 1) := by
  have hfst := runTracked_fst InvSqrt es (BeginPlayState, none)
  have hrun2 : (runTracked InvSqrt (BeginPlayState, none) es).1.bIsWallRunning = true := by
    rw [hfst]; exact hrun
  obtain ⟨n, E0, hn, hd⟩ :=
    runTracked_direction InvSqrt es (BeginPlayState, none) (fun h => by cases h) hrun2
  rw [hfst] at hd
  refine ⟨n, hn, ?_⟩
  rw [hd]
  exact GatWallRunSideDirection_direction_geometry InvSqrt E0 n

/-- The direction property of C13 after pressing forward and touching a wall on
the right, normal `(0, -1, 0)`, while falling. -/
theorem CurrentWallRunDirection_while_running_witness :
    ∃ n : FVector ℚ,
      (runTracked ratInvSqrt (BeginPlayState, none)
        [Event.ForwardInput 1, Event.CapsuleHit sampleEngine ⟨0, -1, 0⟩]).2 = some n ∧
      DotProduct (run ratInvSqrt BeginPlayState
        [Event.ForwardInput 1, Event.CapsuleHit sampleEngine ⟨0, -1, 0⟩]).CurrentWallRunDirection
        UpVector = 0 ∧
      DotProduct (run ratInvSqrt BeginPlayState
        [Event.ForwardInput 1, Event.CapsuleHit sampleEngine ⟨0, -1, 0⟩]).CurrentWallRunDirection
        n = 0 ∧
      (n.X = 0 ∧ n.Y = 0 →
        (run ratInvSqrt BeginPlayState
          [Event.ForwardInput 1,
            Event.CapsuleHit sampleEngine ⟨0, -1, 0⟩]).CurrentWallRunDirection = ZeroVector) ∧
      (ratInvSqrt (n.X * n.X + n.Y * n.Y) * ratInvSqrt (n.X * n.X + n.Y * n.Y) *
          (n.X * n.X + n.Y * n.Y) = 1 →
        SizeSquared (run ratInvSqrt BeginPlayState
          [Event.ForwardInput 1,
            Event.CapsuleHit sampleEngine ⟨0, -1, 0⟩]).CurrentWallRunDirection = 1) :=
  CurrentWallRunDirection_while_running ratInvSqrt
    [Event.ForwardInput 1, Event.CapsuleHit sampleEngine ⟨0, -1, 0⟩]
    (by
      norm_num [run, step, MoveForward, OnPlayerCapsuleHit, IsSurfaceWallRunable,
        AreRequiredKeysDown, GatWallRunSideDirection, StartWallRun, DotProduct, sampleEngine,
        BeginPlayState])

/-- C13 fails as stated: press forward and touch, while falling, a surface with
normal `(0, 0, 0.1)`.  The character is running and its direction is the zero
vector, whose squared length is not one. -/
theorem CurrentWallRunDirection_not_unit_counterexample :
    (run ratInvSqrt BeginPlayState
      [Event.ForwardInput 1, Event.CapsuleHit sampleEngine ⟨0, 0, 1 / 10⟩]).bIsWallRunning =
        true ∧
    (runTracked ratInvSqrt (BeginPlayState, none)
      [Event.ForwardInput 1, Event.CapsuleHit sampleEngine ⟨0, 0, 1 / 10⟩]).2 =
        some ⟨0, 0, 1 / 10⟩ ∧
    ¬ (SizeSquared (run ratInvSqrt BeginPlayState
      [Event.ForwardInput 1,
        Event.CapsuleHit sampleEngine ⟨0, 0, 1 / 10⟩]).CurrentWallRunDirection = 1) := by
  norm_num [run, runTracked, stepTracked, LatestWallNormal, step, MoveForward,
    OnPlayerCapsuleHit, IsSurfaceWallRunable, AreRequiredKeysDown, GatWallRunSideDirection,
    StartWallRun, GetSafeNormal, CrossProduct, DotProduct, SizeSquared, UpVector, ZeroVector,
    sampleEngine, BeginPlayState]

/-! ## Classification geometry, continuation and camera tilt -/

/-- C14: for an actor whose right vector is orthogonal to world-up, with
forward vector `cross(right, up)`, the vector that `GatWallRunSideDirection`
normalises has dot product with forward equal to `|dot(n, right)|`, hence not
negative; and whenever `dot(n, right)` is non-zero the directions returned for
`n` and for `-n` are the same vector. -/
theorem UnnormalizedWallRunDirection_forward (InvSqrt : K → K) (E : Engine K) (n : FVector K)
    (hup : DotProduct E.ActorRightVector UpVector = 0) :
    DotProduct (UnnormalizedWallRunDirection E n) (CrossProduct E.ActorRightVector UpVector) =
      |DotProduct n E.ActorRightVector| ∧
    0 ≤ DotProduct (UnnormalizedWallRunDirection E n)
      (CrossProduct E.ActorRightVector UpVector) ∧
    (GatWallRunSideDirection InvSqrt E n).2 =
      GetSafeNormal InvSqrt (UnnormalizedWallRunDirection E n) ∧
    (DotProduct n E.ActorRightVector ≠ 0 →
      (GatWallRunSideDirection InvSqrt E (neg n)).2 = (GatWallRunSideDirection InvSqrt E n).2) := by
  have hz : E.ActorRightVector.Z = 0 := by
    simpa [DotProduct, UpVector] using hup
  have habs : DotProduct (UnnormalizedWallRunDirection E n)
      (CrossProduct E.ActorRightVector UpVector) = |DotProduct n E.ActorRightVector| := by
    unfold UnnormalizedWallRunDirection
    split
    · next hpos =>
      rw [abs_of_pos hpos]
      simp only [DotProduct, CrossProduct, UpVector, hz]
      ring
    · next hnp =>
      rw [abs_of_nonpos (not_lt.mp hnp)]
      simp only [DotProduct, CrossProduct, UpVector, hz]
      ring
  refine ⟨habs, ?_, GatWallRunSideDirection_snd InvSqrt E n, ?_⟩
  · rw [habs]; exact abs_nonneg _
  · intro hne
    have hneg : DotProduct (neg n) E.ActorRightVector = -DotProduct n E.ActorRightVector := by
      simp only [DotProduct, neg]; ring
    have hc1 : CrossProduct UpVector (neg n) = CrossProduct n UpVector := by
      simp only [CrossProduct, UpVector, neg, FVector.mk.injEq]
      refine ⟨by ring, by ring, by ring⟩
    have hc2 : CrossProduct (neg n) UpVector = CrossProduct UpVector n := by
      simp only [CrossProduct, UpVector, neg, FVector.mk.injEq]
      refine ⟨by ring, by ring, by ring⟩
    rcases lt_or_gt_of_ne hne with hlt | hgt
    · have h1 : ¬ DotProduct n E.ActorRightVector > 0 := not_lt.mpr hlt.le
      have h2 : DotProduct (neg n) E.ActorRightVector > 0 := by rw [hneg]; linarith
      unfold GatWallRunSideDirection
      rw [if_pos h2, if_neg h1, hc2]
    · have h2 : ¬ DotProduct (neg n) E.ActorRightVector > 0 := by rw [hneg]; linarith
      unfold GatWallRunSideDirection
      rw [if_pos hgt, if_neg h2, hc1]

/-- The forward property of C14 for the sample actor, right vector `(0, 1, 0)`,
and a wall on its left with normal `(0, 1, 0)`. -/
theorem UnnormalizedWallRunDirection_forward_witness :
    DotProduct (UnnormalizedWallRunDirection sampleEngine ⟨0, 1, 0⟩)
        (CrossProduct sampleEngine.ActorRightVector UpVector) =
      |DotProduct ⟨0, 1, 0⟩ sampleEngine.ActorRightVector| ∧
    0 ≤ DotProduct (UnnormalizedWallRunDirection sampleEngine ⟨0, 1, 0⟩)
      (CrossProduct sampleEngine.ActorRightVector UpVector) ∧
    (GatWallRunSideDirection ratInvSqrt sampleEngine ⟨0, 1, 0⟩).2 =
      GetSafeNormal ratInvSqrt (UnnormalizedWallRunDirection sampleEngine ⟨0, 1, 0⟩) ∧
    (DotProduct ⟨0, 1, 0⟩ sampleEngine.ActorRightVector ≠ 0 →
      (GatWallRunSideDirection ratInvSqrt sampleEngine (neg ⟨0, 1, 0⟩)).2 =
        (GatWallRunSideDirection ratInvSqrt sampleEngine ⟨0, 1, 0⟩).2) :=
  UnnormalizedWallRunDirection_forward ratInvSqrt sampleEngine ⟨0, 1, 0⟩
    (by norm_num [DotProduct, UpVector, sampleEngine])

/-- C15: `GatWallRunSideDirection` returns side `Left` with the normalised
`cross(n, up)` when `dot(n, right) > 0`, and side `Right` with the normalised
`cross(up, n)` otherwise.  With the inverse square root exact at the squared
horizontal length of `n`: for a normal with non-zero horizontal part the
direction has length one and is orthogonal to world-up and to `n`, and the
direction is the zero vector exactly when `n` has no horizontal part, that is,
when `n` is zero or parallel to world-up. -/
theorem GatWallRunSideDirection_geometry (InvSqrt : K → K) (E : Engine K) (n : FVector K)
    (hexact : n.X ≠ 0 ∨ n.Y ≠ 0 →
      InvSqrt (n.X * n.X + n.Y * n.Y) * InvSqrt (n.X * n.X + n.Y * n.Y) *
        (n.X * n.X + n.Y * n.Y) = 1) :
    (DotProduct n E.ActorRightVector > 0 →
      GatWallRunSideDirection InvSqrt E n =
        (EWallRunSide.Left, GetSafeNormal InvSqrt (CrossProduct n UpVector))) ∧
    (¬ DotProduct n E.ActorRightVector > 0 →
      GatWallRunSideDirection InvSqrt E n =
        (EWallRunSide.Right, GetSafeNormal InvSqrt (CrossProduct UpVector n))) ∧
    (n.X ≠ 0 ∨ n.Y ≠ 0 →
      SizeSquared (GatWallRunSideDirection InvSqrt E n).2 = 1 ∧
      DotProduct (GatWallRunSideDirection InvSqrt E n).2 UpVector = 0 ∧
      DotProduct (GatWallRunSideDirection InvSqrt E n).2 n = 0) ∧
    ((GatWallRunSideDirection InvSqrt E n).2 = ZeroVector ↔ n.X = 0 ∧ n.Y = 0) := by
  obtain ⟨gup, gn, gzero, gunit⟩ := GatWallRunSideDirection_direction_geometry InvSqrt E n
  refine ⟨?_, ?_, ?_, ?_⟩
  · intro h
    unfold GatWallRunSideDirection
    rw [if_pos h]
  · intro h
    unfold GatWallRunSideDirection
    rw [if_neg h]
  · intro hn
    exact ⟨gunit (hexact hn), gup, gn⟩
  · constructor
    · intro hz
      by_contra hcon
      have hn : n.X ≠ 0 ∨ n.Y ≠ 0 := by
        by_contra hboth
        push_neg at hboth
        exact hcon hboth
      have h1 := gunit (hexact hn)
      rw [hz] at h1
      simp [SizeSquared, ZeroVector] at h1
    · exact gzero

/-- The geometry of C15 at the wall normal `(0, -1, 0)`, where the rational
inverse square root is exact. -/
theorem GatWallRunSideDirection_geometry_witness :
    (DotProduct ⟨0, -1, 0⟩ sampleEngine.ActorRightVector > 0 →
      GatWallRunSideDirection ratInvSqrt sampleEngine ⟨0, -1, 0⟩ =
        (EWallRunSide.Left, GetSafeNormal ratInvSqrt (CrossProduct ⟨0, -1, 0⟩ UpVector))) ∧
    (¬ DotProduct ⟨0, -1, 0⟩ sampleEngine.ActorRightVector > 0 →
      GatWallRunSideDirection ratInvSqrt sampleEngine ⟨0, -1, 0⟩ =
        (EWallRunSide.Right, GetSafeNormal ratInvSqrt (CrossProduct UpVector ⟨0, -1, 0⟩))) ∧
    ((0 : ℚ) ≠ 0 ∨ (-1 : ℚ) ≠ 0 →
      SizeSquared (GatWallRunSideDirection ratInvSqrt sampleEngine ⟨0, -1, 0⟩).2 = 1 ∧
      DotProduct (GatWallRunSideDirection ratInvSqrt sampleEngine ⟨0, -1, 0⟩).2 UpVector = 0 ∧
      DotProduct (GatWallRunSideDirection ratInvSqrt sampleEngine ⟨0, -1, 0⟩).2
        ⟨0, -1, 0⟩ = 0) ∧
    ((GatWallRunSideDirection ratInvSqrt sampleEngine ⟨0, -1, 0⟩).2 = ZeroVector ↔
      (0 : ℚ) = 0 ∧ (-1 : ℚ) = 0) :=
  GatWallRunSideDirection_geometry ratInvSqrt sampleEngine ⟨0, -1, 0⟩
    (fun _ => by norm_num [ratInvSqrt])

/-- C16: for a wall-running character whose keys are down for the current side
and whose probe hits a normal `m` that classifies to the current side, the
tick keeps the run flag true and the side unchanged, sets the direction to the
one classified from `m`, and sets the velocity to exactly `MaxSpeed` times that
direction: its up-component is zero, and where the inverse square root is exact
at the squared horizontal length of `m` its squared length is `MaxSpeed`
squared.  The plane-constraint normal and the timer are unchanged. -/
theorem UpdateWallRun_continues (InvSqrt : K → K) (E : Engine K) (c : AWallRunCharacter K)
    (m : FVector K) (hrun : c.bIsWallRunning = true)
    (hkeys : AreRequiredKeysDown c c.CurrentWallRunSide = true)
    (hprobe : WallRunProbe E c = some m)
    (hside : (GatWallRunSideDirection InvSqrt E m).1 = c.CurrentWallRunSide) :
    (UpdateWallRun InvSqrt E c).bIsWallRunning = true ∧
    (UpdateWallRun InvSqrt E c).CurrentWallRunSide = c.CurrentWallRunSide ∧
    (UpdateWallRun InvSqrt E c).CurrentWallRunDirection =
      (GatWallRunSideDirection InvSqrt E m).2 ∧
    (UpdateWallRun InvSqrt E c).Velocity =
      scale E.MaxSpeed (UpdateWallRun InvSqrt E c).CurrentWallRunDirection ∧
    (UpdateWallRun InvSqrt E c).Velocity.Z = 0 ∧
    (InvSqrt (m.X * m.X + m.Y * m.Y) * InvSqrt (m.X * m.X + m.Y * m.Y) *
        (m.X * m.X + m.Y * m.Y) = 1 →
      SizeSquared (UpdateWallRun InvSqrt E c).Velocity = E.MaxSpeed * E.MaxSpeed) ∧
    (UpdateWallRun InvSqrt E c).PlaneConstraintNormal = c.PlaneConstraintNormal ∧
    (UpdateWallRun InvSqrt E c).WallRunTimer = c.WallRunTimer := by
  obtain ⟨gup, _, _, gunit⟩ := GatWallRunSideDirection_direction_geometry InvSqrt E m
  have hz : (GatWallRunSideDirection InvSqrt E m).2.Z = 0 := by
    simpa [DotProduct, UpVector] using gup
  have hU : UpdateWallRun InvSqrt E c =
      { c with
        CurrentWallRunDirection := (GatWallRunSideDirection InvSqrt E m).2
        Velocity := scale E.MaxSpeed (GatWallRunSideDirection InvSqrt E m).2 } := by
    rw [UpdateWallRun_eq, if_pos hrun, if_neg (by rw [hkeys]; decide), hprobe]
    simp only []
    rw [if_neg (not_not.mpr hside)]
  rw [hU]
  refine ⟨hrun, rfl, rfl, rfl, ?_, ?_, rfl, rfl⟩
  · show E.MaxSpeed * (GatWallRunSideDirection InvSqrt E m).2.Z = 0
    rw [hz, mul_zero]
  · intro hexact
    have h1 := gunit hexact
    have e : SizeSquared (scale E.MaxSpeed (GatWallRunSideDirection InvSqrt E m).2) =
        E.MaxSpeed * E.MaxSpeed * SizeSquared (GatWallRunSideDirection InvSqrt E m).2 := by
      simp only [SizeSquared, scale]; ring
    show SizeSquared (scale E.MaxSpeed (GatWallRunSideDirection InvSqrt E m).2) = _
    rw [e, h1, mul_one]

/-- The continuation of C16 at the sample character running on side `Right`
whose probe returns the wall normal `(0, -1, 0)`. -/
theorem UpdateWallRun_continues_witness :
    (UpdateWallRun ratInvSqrt (sampleEngineHitting ⟨0, -1, 0⟩)
      sampleRunningRight).bIsWallRunning = true ∧
    (UpdateWallRun ratInvSqrt (sampleEngineHitting ⟨0, -1, 0⟩)
      sampleRunningRight).CurrentWallRunSide = sampleRunningRight.CurrentWallRunSide ∧
    (UpdateWallRun ratInvSqrt (sampleEngineHitting ⟨0, -1, 0⟩)
      sampleRunningRight).CurrentWallRunDirection =
        (GatWallRunSideDirection ratInvSqrt (sampleEngineHitting ⟨0, -1, 0⟩) ⟨0, -1, 0⟩).2 ∧
    (UpdateWallRun ratInvSqrt (sampleEngineHitting ⟨0, -1, 0⟩) sampleRunningRight).Velocity =
      scale (sampleEngineHitting ⟨0, -1, 0⟩).MaxSpeed
        (UpdateWallRun ratInvSqrt (sampleEngineHitting ⟨0, -1, 0⟩)
          sampleRunningRight).CurrentWallRunDirection ∧
    (UpdateWallRun ratInvSqrt (sampleEngineHitting ⟨0, -1, 0⟩)
      sampleRunningRight).Velocity.Z = 0 ∧
    (ratInvSqrt ((0 : ℚ) * 0 + (-1) * (-1)) * ratInvSqrt ((0 : ℚ) * 0 + (-1) * (-1)) *
        ((0 : ℚ) * 0 + (-1) * (-1)) = 1 →
      SizeSquared (UpdateWallRun ratInvSqrt (sampleEngineHitting ⟨0, -1, 0⟩)
        sampleRunningRight).Velocity =
          (sampleEngineHitting ⟨0, -1, 0⟩).MaxSpeed * (sampleEngineHitting ⟨0, -1, 0⟩).MaxSpeed) ∧
    (UpdateWallRun ratInvSqrt (sampleEngineHitting ⟨0, -1, 0⟩)
      sampleRunningRight).PlaneConstraintNormal = sampleRunningRight.PlaneConstraintNormal ∧
    (UpdateWallRun ratInvSqrt (sampleEngineHitting ⟨0, -1, 0⟩)
      sampleRunningRight).WallRunTimer = sampleRunningRight.WallRunTimer :=
  UpdateWallRun_continues ratInvSqrt (sampleEngineHitting ⟨0, -1, 0⟩) sampleRunningRight
    ⟨0, -1, 0⟩ rfl
    (by norm_num [AreRequiredKeysDown, sampleRunningRight])
    rfl
    (by
      norm_num [GatWallRunSideDirection, DotProduct, sampleEngineHitting, sampleEngine,
        sampleRunningRight])

/-- C17: for every interpolated value and control rotation, `UpdateCameraTilt`
writes roll `-Value` when the current side is `Right` and roll `Value` when it
is `Left`, and keeps the pitch and the yaw of the control rotation. -/
theorem UpdateCameraTilt_roll (c : AWallRunCharacter K) (r : FRotator K) (Value : K) :
    (c.CurrentWallRunSide = EWallRunSide.Right → (UpdateCameraTilt c r Value).Roll = -Value) ∧
    (c.CurrentWallRunSide = EWallRunSide.Left → (UpdateCameraTilt c r Value).Roll = Value) ∧
    (UpdateCameraTilt c r Value).Pitch = r.Pitch ∧
    (UpdateCameraTilt c r Value).Yaw = r.Yaw := by
  refine ⟨?_, ?_, rfl, rfl⟩
  · intro h
    show (if c.CurrentWallRunSide = EWallRunSide.Left then Value else -Value) = -Value
    rw [h, if_neg (by decide)]
  · intro h
    show (if c.CurrentWallRunSide = EWallRunSide.Left then Value else -Value) = Value
    rw [if_pos h]

/-- The tilt sign of C17 at the sample character running on side `Right`,
value `15`: the roll written is `-15`. -/
theorem UpdateCameraTilt_roll_witness :
    (UpdateCameraTilt sampleRunningRight ⟨3, 40, 0⟩ 15).Roll = -15 :=
  (UpdateCameraTilt_roll sampleRunningRight ⟨3, 40, 0⟩ 15).1 rfl

end WallRun
